import Mathlib

/-!
Shallow embedding of the core of `pygeoogc` (files `pygeoogc/utils.py` and
`pygeoogc/pygeoogc.py`) and proofs about it.

Python floats are modelled as exact rationals, Python `int` as `ℤ`/`ℕ`.
Code that can raise returns `Except PyError`.  External collaborators
(`pyproj` reprojection, `pyproj.Geod` geodesic distances, the network) are
parameters of the embedded functions.
-/

/-- Exception classes that the embedded code can raise.  `inputTypeError`,
`inputValueError` and `zeroMatched` model the exception
classes of the package itself from `pygeoogc.exceptions`; the rest model Python built-ins. -/
inductive PyError where
  | inputTypeError (arg expected : String)
  | inputValueError (arg : String)
  | zeroMatched (msg : String)
  | zeroDivisionError
  | valueError (msg : String)
  | keyError (key : String)
  | typeError (msg : String)
deriving DecidableEq, Repr

/-- One element of the list returned by `bbox_decompose` (`utils.py` line 474 /
line 493): a bounding box `(west, south, east, north)`, a `"col_row"` label,
and the raster width and height of the cell in pixels.  The Python code uses
a plain 4-tuple; a structure is used here for readability. -/
structure Tile where
  box : ℚ × ℚ × ℚ × ℚ
  label : String
  w : ℤ
  h : ℤ
deriving DecidableEq, Repr

def dummyTile : Tile := { box := (0, 0, 0, 0), label := "", w := 0, h := 0 }

/-- West edge of the box of a tile. -/
def Tile.west (t : Tile) : ℚ := t.box.1

/-- South edge of the box of a tile. -/
def Tile.south (t : Tile) : ℚ := t.box.2.1

/-- East edge of the box of a tile. -/
def Tile.east (t : Tile) : ℚ := t.box.2.2.1

/-- North edge of the box of a tile. -/
def Tile.north (t : Tile) : ℚ := t.box.2.2.2

/-- Functional rendering of `itertools.accumulate` on rationals
(`utils.py` line 482): running partial sums of a list. -/
def accumulate : List ℚ → List ℚ
  | [] => []
  | d :: ds => d :: (accumulate ds).map (fun t => d + t)

/-- Line 479 of `utils.py`: `npt = [n_px for _ in range(int(px_tot / n_px))] +
[px_tot % n_px]`.  Python `int()` on a float quotient truncates toward zero,
which is `Int.tdiv`; Python `%` follows the sign of the divisor, which for the
nonnegative `n_px` used by `bbox_decompose` is `Int.emod`.  `range` of a
negative number is empty, matching `Int.toNat`. -/
def chunkSizes (npx pxTot : ℤ) : List ℤ :=
  List.replicate (Int.tdiv pxTot npx).toNat npx ++ [Int.emod pxTot npx]

/-- Lines 480-484 of `utils.py`: `xd = abs(high - low)`, `dx = [xd * n / sum(npt)
for n in npt]`, `xs = [low + d for d in itertools.accumulate(dx)]` with `low`
inserted at the front. -/
def boundaries (low high : ℚ) (npt : List ℤ) : List ℚ :=
  let xd : ℚ := |high - low|
  let dx : List ℚ := npt.map (fun (m : ℤ) => xd * (m : ℚ) / ((npt.sum : ℤ) : ℚ))
  low :: (accumulate dx).map (fun dcum => low + dcum)

/-- The inner function `_split_directional` of `bbox_decompose`
(`utils.py` lines 478-484).  Python raises `ZeroDivisionError` at line 479 when
`n_px == 0` and at line 481 when `sum(npt) == 0`. -/
def splitDirectional (npx : ℤ) (low high : ℚ) (pxTot : ℤ) :
    Except PyError (List ℤ × List ℚ) :=
  if npx = 0 then .error .zeroDivisionError
  else
    let npt := chunkSizes npx pxTot
    if npt.sum = 0 then .error .zeroDivisionError
    else .ok (npt, boundaries low high npt)

/-- Row-major grid of values `f row col` with `rows` rows and `cols` columns. -/
def gridL {α : Type} (rows cols : ℕ) (f : ℕ → ℕ → α) : List α :=
  (List.range rows).flatMap (fun j => (List.range cols).map (fun i => f j i))

/-- The double loop of `utils.py` lines 489-493: one tile per `(col, row)` pair,
row-major, with box `(xs[i], ys[j], xs[i+1], ys[j+1])`, label `f"{i}_{j}"`,
and pixel sizes `nw[i]`, `nh[j]`.  All indices are in range, so `getD` never
falls back to its default. -/
def gridTiles (xs ys : List ℚ) (nw nh : List ℤ) : List Tile :=
  gridL nh.length nw.length (fun j i =>
    { box := (xs.getD i 0, ys.getD j 0, xs.getD (i + 1) 0, ys.getD (j + 1) 0),
      label := toString i ++ "_" ++ toString j,
      w := nw.getD i 0, h := nh.getD j 0 })

/-- Line 468 of `utils.py`: the geodesic length of the south edge of the
reprojected box, `geod.geometry_length(LineString([(xmin, ymin), (xmax, ymin)]))`.
`reproject` models `match_crs(bbox, box_crs, 4326)` and `geodDist` models the
external `pyproj.Geod(ellps="GRS80")` length computation. -/
def xDist (reproject : ℚ × ℚ × ℚ × ℚ → ℚ × ℚ × ℚ × ℚ)
    (geodDist : ℚ × ℚ → ℚ × ℚ → ℚ) (bbox : ℚ × ℚ × ℚ × ℚ) : ℚ :=
  match reproject bbox with
  | (xmin, ymin, xmax, _) => geodDist (xmin, ymin) (xmax, ymin)

/-- Line 469 of `utils.py`: the geodesic length of the west edge of the
reprojected box. -/
def yDist (reproject : ℚ × ℚ × ℚ × ℚ → ℚ × ℚ × ℚ × ℚ)
    (geodDist : ℚ × ℚ → ℚ × ℚ → ℚ) (bbox : ℚ × ℚ × ℚ × ℚ) : ℚ :=
  match reproject bbox with
  | (xmin, ymin, _, ymax) => geodDist (xmin, ymin) (xmin, ymax)

/-- Line 470 of `utils.py`: `width = int(math.ceil(x_dist / resolution))`. -/
def widthPx (reproject : ℚ × ℚ × ℚ × ℚ → ℚ × ℚ × ℚ × ℚ)
    (geodDist : ℚ × ℚ → ℚ × ℚ → ℚ) (bbox : ℚ × ℚ × ℚ × ℚ) (resolution : ℚ) : ℤ :=
  ⌈xDist reproject geodDist bbox / resolution⌉

/-- Line 471 of `utils.py`: `height = int(math.ceil(y_dist / resolution))`. -/
def heightPx (reproject : ℚ × ℚ × ℚ × ℚ → ℚ × ℚ × ℚ × ℚ)
    (geodDist : ℚ × ℚ → ℚ × ℚ → ℚ) (bbox : ℚ × ℚ × ℚ × ℚ) (resolution : ℚ) : ℤ :=
  ⌈yDist reproject geodDist bbox / resolution⌉

/-- Lines 473-494 of `utils.py` after the pixel sizes have been computed.
Note line 473-474: when `width * height <= max_px` the code binds `bboxs` to a
single-tile list, but that binding is unconditionally overwritten by
`bboxs = []` at line 489 before it is ever used, so it has no effect on the
returned value; it is kept here as the dead binding `deadSingle`.
Line 476 `int(math.sqrt(max_px))` raises `ValueError` for negative `max_px`
and is `Nat.sqrt` otherwise (the `floor(sqrt(max_pixels))` of the spec). -/
def decomposeGrid (bbox : ℚ × ℚ × ℚ × ℚ) (width height maxPx : ℤ) :
    Except PyError (List Tile) :=
  match bbox with
  | (west, south, east, north) =>
    let _deadSingle : List Tile :=
      if width * height ≤ maxPx then [{ box := bbox, label := "0_0", w := width, h := height }]
      else []
    if maxPx < 0 then .error (.valueError "math domain error")
    else
      let npx : ℤ := (Nat.sqrt maxPx.toNat : ℤ)
      match splitDirectional npx west east width with
      | .error e => .error e
      | .ok (nw, xs) =>
        match splitDirectional npx south north height with
        | .error e => .error e
        | .ok (nh, ys) => .ok (gridTiles xs ys nw nh)

/-- `bbox_decompose` of `utils.py` lines 417-494, with the two external
collaborators as parameters: `reproject` models `match_crs(bbox, box_crs, 4326)`
(the identity when `box_crs` already resolves to EPSG:4326) and `geodDist`
models the `pyproj.Geod` geodesic length of a two-point line string.
Python raises `ZeroDivisionError` at line 470 when `resolution == 0`; a
nonzero (even negative) resolution is not rejected. -/
def bbox_decompose (reproject : ℚ × ℚ × ℚ × ℚ → ℚ × ℚ × ℚ × ℚ)
    (geodDist : ℚ × ℚ → ℚ × ℚ → ℚ) (bbox : ℚ × ℚ × ℚ × ℚ)
    (resolution : ℚ) (maxPx : ℤ) : Except PyError (List Tile) :=
  if resolution = 0 then .error .zeroDivisionError
  else
    decomposeGrid bbox (widthPx reproject geodDist bbox resolution)
      (heightPx reproject geodDist bbox resolution) maxPx

/-- A planar L1 stand-in for the external geodesic distance, used for concrete
test inputs. -/
def distL1 (p q : ℚ × ℚ) : ℚ := |q.1 - p.1| + |q.2 - p.2|

/-! ### Arithmetic and list lemmas about the embedded helpers -/

lemma sqrt_nine : Nat.sqrt 9 = 3 := (Nat.eq_sqrt.mpr (by norm_num)).symm

lemma accumulate_length (l : List ℚ) : (accumulate l).length = l.length := by
  induction l with
  | nil => rfl
  | cons d ds ih => simp [accumulate, ih]

lemma accumulate_getElem? (l : List ℚ) (k : ℕ) :
    (accumulate l)[k]? =
      if k < l.length then some ((l.take (k + 1)).sum) else none := by
  induction l generalizing k with
  | nil => simp [accumulate]
  | cons d ds ih =>
    cases k with
    | zero => simp [accumulate]
    | succ k =>
      simp only [accumulate, List.getElem?_cons_succ, List.getElem?_map, ih,
        List.take_succ_cons, List.sum_cons, List.length_cons]
      by_cases hk : k < ds.length
      · simp [hk]
      · simp [hk]

lemma sum_map_div (l : List ℤ) (c S : ℚ) :
    (l.map (fun (m : ℤ) => c * (m : ℚ) / S)).sum = c * (l.sum : ℚ) / S := by
  induction l with
  | nil => simp
  | cons m ms ih =>
    simp only [List.map_cons, List.sum_cons, ih, List.sum_cons]
    push_cast
    ring

lemma boundaries_length (low high : ℚ) (npt : List ℤ) :
    (boundaries low high npt).length = npt.length + 1 := by
  simp [boundaries, accumulate_length]

lemma boundaries_getD (low high : ℚ) (npt : List ℤ) (k : ℕ) (hk : k ≤ npt.length) :
    (boundaries low high npt).getD k 0 =
      low + |high - low| * ((npt.take k).sum : ℚ) / ((npt.sum : ℤ) : ℚ) := by
  cases k with
  | zero => simp [boundaries]
  | succ k =>
    have hk2 : k < npt.length := Nat.lt_of_succ_le hk
    have hlen : k <
        (npt.map (fun (m : ℤ) => |high - low| * (m : ℚ) / ((npt.sum : ℤ) : ℚ))).length := by
      simpa using hk2
    rw [boundaries]
    rw [List.getD_eq_getElem?_getD, List.getElem?_cons_succ, List.getElem?_map,
      accumulate_getElem?, if_pos hlen, ← List.map_take, sum_map_div]
    simp

lemma boundaries_getD_zero (low high : ℚ) (npt : List ℤ) :
    (boundaries low high npt).getD 0 0 = low := by
  simp [boundaries]

lemma boundaries_getD_last (low high : ℚ) (npt : List ℤ) (hS : npt.sum ≠ 0) :
    (boundaries low high npt).getD npt.length 0 = low + |high - low| := by
  rw [boundaries_getD low high npt npt.length le_rfl, List.take_length]
  have hS2 : ((npt.sum : ℤ) : ℚ) ≠ 0 := Int.cast_ne_zero.mpr hS
  rw [mul_div_assoc, div_self hS2, mul_one]

lemma boundaries_step (low high : ℚ) (npt : List ℤ) (k : ℕ) (hk : k < npt.length)
    (hpos : 0 < npt.sum) (hmem : ∀ m ∈ npt, 0 ≤ m) :
    (boundaries low high npt).getD k 0 ≤ (boundaries low high npt).getD (k + 1) 0 := by
  rw [boundaries_getD low high npt k (le_of_lt hk),
    boundaries_getD low high npt (k + 1) hk]
  have hstep : (npt.take (k + 1)).sum = (npt.take k).sum + npt[k] :=
    List.sum_take_succ npt k hk
  rw [hstep]
  have hS : (0 : ℚ) < ((npt.sum : ℤ) : ℚ) := by exact_mod_cast hpos
  have hentry : (0 : ℚ) ≤ ((npt[k] : ℤ) : ℚ) := by
    exact_mod_cast hmem _ (npt.getElem_mem hk)
  have habs : (0 : ℚ) ≤ |high - low| := abs_nonneg _
  have key : |high - low| * (((npt.take k).sum : ℤ) : ℚ) / ((npt.sum : ℤ) : ℚ) ≤
      |high - low| * ((((npt.take k).sum + npt[k] : ℤ) : ℚ)) / ((npt.sum : ℤ) : ℚ) := by
    apply div_le_div_of_nonneg_right _ hS.le
    apply mul_le_mul_of_nonneg_left _ habs
    push_cast
    linarith
  linarith

/-! ### Facts about `chunkSizes` (the pixel chunk list of line 479) -/

lemma chunkSizes_ne_nil (npx pxTot : ℤ) : chunkSizes npx pxTot ≠ [] := by
  simp [chunkSizes]

lemma chunkSizes_length (npx pxTot : ℤ) :
    (chunkSizes npx pxTot).length = (Int.tdiv pxTot npx).toNat + 1 := by
  simp [chunkSizes]

lemma chunkSizes_mem_bounds {npx pxTot m : ℤ} (hpx : 0 < npx)
    (hm : m ∈ chunkSizes npx pxTot) : 0 ≤ m ∧ m ≤ npx := by
  simp only [chunkSizes, List.mem_append, List.mem_replicate, List.mem_singleton] at hm
  rcases hm with ⟨-, rfl⟩ | rfl
  · exact ⟨le_of_lt hpx, le_rfl⟩
  · exact ⟨Int.emod_nonneg pxTot (ne_of_gt hpx), le_of_lt (Int.emod_lt_of_pos pxTot hpx)⟩

lemma chunkSizes_sum_pos {npx pxTot : ℤ} (hpx : 0 < npx)
    (hsum : (chunkSizes npx pxTot).sum ≠ 0) : 0 < (chunkSizes npx pxTot).sum := by
  rcases lt_or_eq_of_le (List.sum_nonneg (fun m hm => (chunkSizes_mem_bounds hpx hm).1)) with h | h
  · exact h
  · exact absurd h.symm hsum

/-- When `npx` divides a positive total, the remainder chunk is `0` and it is
kept at the end of the chunk list. -/
lemma chunkSizes_last_zero {npx pxTot : ℤ} (hdvd : npx ∣ pxTot) :
    (chunkSizes npx pxTot).getD ((chunkSizes npx pxTot).length - 1) 0 = 0 := by
  have hmod : Int.emod pxTot npx = 0 := Int.emod_eq_zero_of_dvd hdvd
  simp [chunkSizes, hmod, List.getD_eq_getElem?_getD,
    List.getElem?_append_right (le_refl (List.replicate (Int.tdiv pxTot npx).toNat npx).length)]

/-! ### Inversion lemmas for the decomposition pipeline -/

lemma splitDirectional_ok {npx : ℤ} {low high : ℚ} {pxTot : ℤ} {npt : List ℤ}
    {xs : List ℚ} (h : splitDirectional npx low high pxTot = .ok (npt, xs)) :
    npx ≠ 0 ∧ npt = chunkSizes npx pxTot ∧ npt.sum ≠ 0 ∧
      xs = boundaries low high npt := by
  by_cases h1 : npx = 0
  · simp [splitDirectional, h1] at h
  · by_cases h2 : (chunkSizes npx pxTot).sum = 0
    · simp [splitDirectional, h1, h2] at h
    · refine ⟨h1, ?_⟩
      simp only [splitDirectional, h1, if_false, h2, Except.ok.injEq, Prod.mk.injEq] at h
      obtain ⟨hnpt, hxs⟩ := h
      subst hnpt
      exact ⟨rfl, h2, hxs.symm⟩

lemma decomposeGrid_ok {west south east north : ℚ} {width height maxPx : ℤ}
    {tiles : List Tile}
    (h : decomposeGrid (west, south, east, north) width height maxPx = .ok tiles) :
    0 ≤ maxPx ∧ (0 : ℤ) < (Nat.sqrt maxPx.toNat : ℤ) ∧
      (chunkSizes (Nat.sqrt maxPx.toNat : ℤ) width).sum ≠ 0 ∧
      (chunkSizes (Nat.sqrt maxPx.toNat : ℤ) height).sum ≠ 0 ∧
      tiles = gridTiles
        (boundaries west east (chunkSizes (Nat.sqrt maxPx.toNat : ℤ) width))
        (boundaries south north (chunkSizes (Nat.sqrt maxPx.toNat : ℤ) height))
        (chunkSizes (Nat.sqrt maxPx.toNat : ℤ) width)
        (chunkSizes (Nat.sqrt maxPx.toNat : ℤ) height) := by
  by_cases hneg : maxPx < 0
  · simp [decomposeGrid, hneg] at h
  · simp only [decomposeGrid, hneg, if_false] at h
    cases hw : splitDirectional (Nat.sqrt maxPx.toNat : ℤ) west east width with
    | error e => rw [hw] at h; simp at h
    | ok p =>
      obtain ⟨nw, xs⟩ := p
      cases hh : splitDirectional (Nat.sqrt maxPx.toNat : ℤ) south north height with
      | error e => rw [hw, hh] at h; simp at h
      | ok q =>
        obtain ⟨nh, ys⟩ := q
        rw [hw, hh] at h
        simp only [Except.ok.injEq] at h
        obtain ⟨hnz, hnw, hsw, hxs⟩ := splitDirectional_ok hw
        obtain ⟨-, hnh, hsh, hys⟩ := splitDirectional_ok hh
        have hpos : (0 : ℤ) < (Nat.sqrt maxPx.toNat : ℤ) :=
          lt_of_le_of_ne (Int.natCast_nonneg _) (Ne.symm hnz)
        subst hnw hnh hxs hys
        exact ⟨not_lt.mp hneg, hpos, hsw, hsh, h.symm⟩

lemma bbox_decompose_ok {reproject : ℚ × ℚ × ℚ × ℚ → ℚ × ℚ × ℚ × ℚ}
    {geodDist : ℚ × ℚ → ℚ × ℚ → ℚ} {bbox : ℚ × ℚ × ℚ × ℚ} {resolution : ℚ}
    {maxPx : ℤ} {tiles : List Tile}
    (h : bbox_decompose reproject geodDist bbox resolution maxPx = .ok tiles) :
    resolution ≠ 0 ∧
      decomposeGrid bbox (widthPx reproject geodDist bbox resolution)
        (heightPx reproject geodDist bbox resolution) maxPx = .ok tiles := by
  by_cases hres : resolution = 0
  · simp [bbox_decompose, hres] at h
  · refine ⟨hres, ?_⟩
    simpa [bbox_decompose, hres] using h

/-! ### Generic sequence lemmas for boundary chains -/

lemma exists_between_steps (g : ℕ → ℚ) (x : ℚ) :
    ∀ N : ℕ, 1 ≤ N → g 0 ≤ x → x ≤ g N → ∃ k, k < N ∧ g k ≤ x ∧ x ≤ g (k + 1) := by
  intro N
  induction N with
  | zero => omega
  | succ m ih =>
    intro h1 h0 hN
    by_cases hm : m = 0
    · subst hm
      exact ⟨0, Nat.zero_lt_one, h0, hN⟩
    · by_cases hx : x ≤ g m
      · obtain ⟨k, hk, hg⟩ := ih (by omega) h0 hx
        exact ⟨k, by omega, hg⟩
      · exact ⟨m, Nat.lt_succ_self m, le_of_not_le hx, hN⟩

lemma steps_mono (g : ℕ → ℚ) (N : ℕ) (hstep : ∀ k, k < N → g k ≤ g (k + 1)) :
    ∀ a b, a ≤ b → b ≤ N → g a ≤ g b := by
  intro a b
  induction b with
  | zero =>
    intro hab _
    have : a = 0 := by omega
    subst this
    exact le_rfl
  | succ m ih =>
    intro hab hbN
    by_cases ham : a = m + 1
    · subst ham
      exact le_rfl
    · exact le_trans (ih (by omega) (by omega)) (hstep m (by omega))

lemma getD_mem_of_lt {α : Type} (l : List α) (i : ℕ) (d : α) (hi : i < l.length) :
    l.getD i d ∈ l := by
  rw [List.getD_eq_getElem?_getD, List.getElem?_eq_getElem hi, Option.getD_some]
  exact List.getElem_mem hi

/-! ### Generic grid lemmas -/

lemma gridL_succ {α : Type} (r cols : ℕ) (f : ℕ → ℕ → α) :
    gridL (r + 1) cols f = gridL r cols f ++ (List.range cols).map (fun i => f r i) := by
  simp [gridL, List.range_succ]

lemma gridL_length {α : Type} (rows cols : ℕ) (f : ℕ → ℕ → α) :
    (gridL rows cols f).length = rows * cols := by
  induction rows with
  | zero => simp [gridL]
  | succ r ih => simp [gridL_succ, ih, Nat.succ_mul]

lemma gridL_mem {α : Type} {rows cols : ℕ} {f : ℕ → ℕ → α} {a : α} :
    a ∈ gridL rows cols f ↔ ∃ j, j < rows ∧ ∃ i, i < cols ∧ a = f j i := by
  simp only [gridL, List.mem_flatMap, List.mem_map, List.mem_range]
  constructor
  · rintro ⟨j, hj, i, hi, rfl⟩
    exact ⟨j, hj, i, hi, rfl⟩
  · rintro ⟨j, hj, i, hi, rfl⟩
    exact ⟨j, hj, i, hi, rfl⟩

lemma gridL_getD {α : Type} {rows cols : ℕ} (f : ℕ → ℕ → α) {j i : ℕ} (d : α)
    (hj : j < rows) (hi : i < cols) :
    (gridL rows cols f).getD (j * cols + i) d = f j i := by
  induction rows with
  | zero => omega
  | succ r ih =>
    rw [gridL_succ]
    rcases Nat.lt_or_ge j r with hjr | hjr
    · rw [List.getD_eq_getElem?_getD, List.getElem?_append_left, ← List.getD_eq_getElem?_getD]
      · exact ih hjr
      · rw [gridL_length]
        calc j * cols + i < j * cols + cols := by omega
        _ = (j + 1) * cols := by ring
        _ ≤ r * cols := Nat.mul_le_mul_right cols hjr
    · have hjeq : j = r := by omega
      subst hjeq
      rw [List.getD_eq_getElem?_getD, List.getElem?_append_right]
      · rw [gridL_length]
        have : j * cols + i - j * cols = i := by omega
        rw [this, List.getElem?_map, List.getElem?_range hi]
        rfl
      · rw [gridL_length]
        omega

lemma gridL_pairwise {α : Type} {rows cols : ℕ} {f : ℕ → ℕ → α}
    {P : α → α → Prop}
    (h : ∀ j i j2 i2, j < rows → i < cols → j2 < rows → i2 < cols →
      (j < j2 ∨ (j = j2 ∧ i < i2)) → P (f j i) (f j2 i2)) :
    (gridL rows cols f).Pairwise P := by
  induction rows with
  | zero => simp [gridL]
  | succ r ih =>
    rw [gridL_succ, List.pairwise_append]
    refine ⟨?_, ?_, ?_⟩
    · exact ih (fun j i j2 i2 hj hi hj2 hi2 hlt =>
        h j i j2 i2 (Nat.lt_succ_of_lt hj) hi (Nat.lt_succ_of_lt hj2) hi2 hlt)
    · rw [List.pairwise_map]
      refine List.Pairwise.imp_of_mem ?_ (List.pairwise_lt_range cols)
      intro a b ha hb hlt
      rw [List.mem_range] at ha hb
      exact h r a r b (Nat.lt_succ_self r) ha (Nat.lt_succ_self r) hb (Or.inr ⟨rfl, hlt⟩)
    · intro a ha b hb
      rw [gridL_mem] at ha
      obtain ⟨j, hj, i, hi, rfl⟩ := ha
      rw [List.mem_map] at hb
      obtain ⟨i2, hi2mem, rfl⟩ := hb
      rw [List.mem_range] at hi2mem
      exact h j i r i2 (Nat.lt_succ_of_lt hj) hi (Nat.lt_succ_self r) hi2mem (Or.inl hj)

/-! ### Point-in-tile predicates -/

/-- The point `(x, y)` lies in the (closed) box of tile `t`. -/
def inBox (x y : ℚ) (t : Tile) : Prop :=
  t.west ≤ x ∧ x ≤ t.east ∧ t.south ≤ y ∧ y ≤ t.north

/-- The point `(x, y)` lies strictly inside the box of tile `t`. -/
def strictInBox (x y : ℚ) (t : Tile) : Prop :=
  t.west < x ∧ x < t.east ∧ t.south < y ∧ y < t.north

/-- Structure of every successful `bbox_decompose` run: the result is the grid
built from the two chunk lists and their cumulative boundary lists, the
per-tile pixel budget is positive, the chunk entries are between `0` and the
budget, and both chunk sums are positive. -/
lemma decompose_ok_structure {reproject : ℚ × ℚ × ℚ × ℚ → ℚ × ℚ × ℚ × ℚ}
    {geodDist : ℚ × ℚ → ℚ × ℚ → ℚ} {w s e n : ℚ} {res : ℚ} {mx : ℤ}
    {tiles : List Tile}
    (h : bbox_decompose reproject geodDist (w, s, e, n) res mx = .ok tiles) :
    ∃ nw nh : List ℤ,
      0 ≤ mx ∧ (0 : ℤ) < (Nat.sqrt mx.toNat : ℤ) ∧
      nw = chunkSizes (Nat.sqrt mx.toNat : ℤ) (widthPx reproject geodDist (w, s, e, n) res) ∧
      nh = chunkSizes (Nat.sqrt mx.toNat : ℤ) (heightPx reproject geodDist (w, s, e, n) res) ∧
      0 < nw.sum ∧ 0 < nh.sum ∧
      (∀ m ∈ nw, 0 ≤ m ∧ m ≤ (Nat.sqrt mx.toNat : ℤ)) ∧
      (∀ m ∈ nh, 0 ≤ m ∧ m ≤ (Nat.sqrt mx.toNat : ℤ)) ∧
      tiles = gridTiles (boundaries w e nw) (boundaries s n nh) nw nh := by
  obtain ⟨-, hgrid⟩ := bbox_decompose_ok h
  obtain ⟨hmx, hpos, hsw, hsh, htiles⟩ := decomposeGrid_ok hgrid
  refine ⟨_, _, hmx, hpos, rfl, rfl, ?_, ?_, ?_, ?_, htiles⟩
  · exact chunkSizes_sum_pos hpos hsw
  · exact chunkSizes_sum_pos hpos hsh
  · exact fun m hm => chunkSizes_mem_bounds hpos hm
  · exact fun m hm => chunkSizes_mem_bounds hpos hm

/-! ### Claim theorems for the BBox tiler -/

/-- Claim C3: for every decomposition produced by `bbox_decompose` with
`max_px > 0`, every emitted tile satisfies `width * height <= max_px`
(each chunk is at most `n = floor(sqrt(max_px))` pixels and `n * n <= max_px`). -/
theorem bbox_decompose_tiles_within_budget
    {reproject : ℚ × ℚ × ℚ × ℚ → ℚ × ℚ × ℚ × ℚ} {geodDist : ℚ × ℚ → ℚ × ℚ → ℚ}
    {w s e n res : ℚ} {mx : ℤ} {tiles : List Tile}
    (hok : bbox_decompose reproject geodDist (w, s, e, n) res mx = .ok tiles)
    (_hmx : 0 < mx) :
    ∀ t ∈ tiles, t.w * t.h ≤ mx := by
  obtain ⟨nw, nh, hmx0, hpos, hnweq, hnheq, hswpos, hshpos, hbw, hbh, htiles⟩ :=
    decompose_ok_structure hok
  subst htiles
  intro t ht
  simp only [gridTiles] at ht
  obtain ⟨j, hj, i, hi, rfl⟩ := gridL_mem.mp ht
  obtain ⟨hw0, hwn⟩ := hbw _ (getD_mem_of_lt nw i 0 hi)
  obtain ⟨hh0, hhn⟩ := hbh _ (getD_mem_of_lt nh j 0 hj)
  have hsq : (Nat.sqrt mx.toNat : ℤ) * (Nat.sqrt mx.toNat : ℤ) ≤ mx := by
    have h1 : Nat.sqrt mx.toNat * Nat.sqrt mx.toNat ≤ mx.toNat := Nat.sqrt_le mx.toNat
    have h2 : ((mx.toNat : ℤ)) = mx := Int.toNat_of_nonneg hmx0
    calc (Nat.sqrt mx.toNat : ℤ) * (Nat.sqrt mx.toNat : ℤ)
        = ((Nat.sqrt mx.toNat * Nat.sqrt mx.toNat : ℕ) : ℤ) := by push_cast; ring
      _ ≤ ((mx.toNat : ℤ)) := by exact_mod_cast h1
      _ = mx := h2
  calc (Tile.w { box := _, label := _, w := nw.getD i 0, h := nh.getD j 0 }) *
        (Tile.h { box := _, label := _, w := nw.getD i 0, h := nh.getD j 0 })
      = nw.getD i 0 * nh.getD j 0 := rfl
    _ ≤ (Nat.sqrt mx.toNat : ℤ) * (Nat.sqrt mx.toNat : ℤ) :=
        mul_le_mul hwn hhn hh0 (le_of_lt hpos)
    _ ≤ mx := hsq

/-- Claim C5 (amended): zero-length remainder chunks are kept, not dropped:
whenever a decomposition succeeds and the per-tile edge budget
`floor(sqrt(max_px))` divides the total pixel width, a tile of pixel
width `0` appears in the output. -/
theorem bbox_decompose_keeps_zero_width_remainder
    {reproject : ℚ × ℚ × ℚ × ℚ → ℚ × ℚ × ℚ × ℚ} {geodDist : ℚ × ℚ → ℚ × ℚ → ℚ}
    {w s e n res : ℚ} {mx : ℤ} {tiles : List Tile}
    (hok : bbox_decompose reproject geodDist (w, s, e, n) res mx = .ok tiles)
    (hdvd : (Nat.sqrt mx.toNat : ℤ) ∣ widthPx reproject geodDist (w, s, e, n) res) :
    ∃ t ∈ tiles, t.w = 0 := by
  obtain ⟨nw, nh, hmx0, hpos, hnweq, hnheq, hswpos, hshpos, hbw, hbh, htiles⟩ :=
    decompose_ok_structure hok
  subst htiles
  have hlw : 0 < nw.length := by
    rw [hnweq, chunkSizes_length]
    omega
  have hlh : 0 < nh.length := by
    rw [hnheq, chunkSizes_length]
    omega
  refine ⟨_, gridL_mem.mpr ⟨0, hlh, nw.length - 1, by omega, rfl⟩, ?_⟩
  show nw.getD (nw.length - 1) 0 = 0
  rw [hnweq]
  exact chunkSizes_last_zero hdvd

/-- Claim C4 (amended): `resolution = 0` or `max_px <= 0` makes
`bbox_decompose` fail, but with Python arithmetic errors (`ZeroDivisionError`
from the divisions at lines 470/479, `ValueError` from `math.sqrt` at
line 476), not with the package exception `InputValueError`; there is no input
validation for these arguments. -/
theorem bbox_decompose_nonpositive_args_error
    (reproject : ℚ × ℚ × ℚ × ℚ → ℚ × ℚ × ℚ × ℚ) (geodDist : ℚ × ℚ → ℚ × ℚ → ℚ)
    (bbox : ℚ × ℚ × ℚ × ℚ) (res : ℚ) (mx : ℤ)
    (h : res = 0 ∨ mx ≤ 0) :
    ∃ err, bbox_decompose reproject geodDist bbox res mx = .error err ∧
      (err = PyError.zeroDivisionError ∨ err = PyError.valueError "math domain error") := by
  by_cases hres : res = 0
  · exact ⟨.zeroDivisionError, by simp [bbox_decompose, hres], Or.inl rfl⟩
  · have hmx : mx ≤ 0 := by tauto
    obtain ⟨w, s, e, n⟩ := bbox
    rcases lt_or_eq_of_le hmx with hlt | heq
    · refine ⟨.valueError "math domain error", ?_, Or.inr rfl⟩
      simp [bbox_decompose, hres, decomposeGrid, hlt]
    · subst heq
      refine ⟨.zeroDivisionError, ?_, Or.inl rfl⟩
      simp [bbox_decompose, hres, decomposeGrid, splitDirectional]

/-- Claim C2: every decomposition partitions the original box exactly: the
boundary lists are built by cumulative summation so adjacent tiles share the
identical boundary value, the first boundaries are the west/south of the box, the
last are east/north, every point of the box lies in some tile (no gap) and no
two distinct tiles share an interior point (no overlap); here the arithmetic
is exact because floats are modelled as rationals. -/
theorem bbox_decompose_partitions_exactly
    (reproject : ℚ × ℚ × ℚ × ℚ → ℚ × ℚ × ℚ × ℚ) (geodDist : ℚ × ℚ → ℚ × ℚ → ℚ)
    (w s e n res : ℚ) (mx : ℤ) (tiles : List Tile)
    (hok : bbox_decompose reproject geodDist (w, s, e, n) res mx = .ok tiles)
    (hwe : w ≤ e) (hsn : s ≤ n) :
    ∃ xs ys : List ℚ, ∃ ncols nrows : ℕ,
      0 < ncols ∧ 0 < nrows ∧
      xs.length = ncols + 1 ∧ ys.length = nrows + 1 ∧
      tiles.length = nrows * ncols ∧
      xs.getD 0 0 = w ∧ xs.getD ncols 0 = e ∧
      ys.getD 0 0 = s ∧ ys.getD nrows 0 = n ∧
      (∀ i, i < ncols → xs.getD i 0 ≤ xs.getD (i + 1) 0) ∧
      (∀ j, j < nrows → ys.getD j 0 ≤ ys.getD (j + 1) 0) ∧
      (∀ j, j < nrows → ∀ i, i < ncols →
        (tiles.getD (j * ncols + i) dummyTile).box =
          (xs.getD i 0, ys.getD j 0, xs.getD (i + 1) 0, ys.getD (j + 1) 0)) ∧
      (∀ x y : ℚ, w ≤ x → x ≤ e → s ≤ y → y ≤ n → ∃ t ∈ tiles, inBox x y t) ∧
      tiles.Pairwise (fun t1 t2 => ∀ x y : ℚ,
        ¬(strictInBox x y t1 ∧ strictInBox x y t2)) := by
  obtain ⟨nw, nh, hmx0, hpos, hnweq, hnheq, hswpos, hshpos, hbw, hbh, htiles⟩ :=
    decompose_ok_structure hok
  subst htiles
  have hxlast : (boundaries w e nw).getD nw.length 0 = e := by
    rw [boundaries_getD_last w e nw (ne_of_gt hswpos),
      abs_of_nonneg (sub_nonneg.mpr hwe)]
    ring
  have hylast : (boundaries s n nh).getD nh.length 0 = n := by
    rw [boundaries_getD_last s n nh (ne_of_gt hshpos),
      abs_of_nonneg (sub_nonneg.mpr hsn)]
    ring
  have hxstep : ∀ i, i < nw.length →
      (boundaries w e nw).getD i 0 ≤ (boundaries w e nw).getD (i + 1) 0 :=
    fun i hi => boundaries_step w e nw i hi hswpos (fun m hm => (hbw m hm).1)
  have hystep : ∀ j, j < nh.length →
      (boundaries s n nh).getD j 0 ≤ (boundaries s n nh).getD (j + 1) 0 :=
    fun j hj => boundaries_step s n nh j hj hshpos (fun m hm => (hbh m hm).1)
  have hlw : 0 < nw.length := by
    rw [hnweq, chunkSizes_length]
    omega
  have hlh : 0 < nh.length := by
    rw [hnheq, chunkSizes_length]
    omega
  refine ⟨boundaries w e nw, boundaries s n nh, nw.length, nh.length,
    hlw, hlh, boundaries_length w e nw, boundaries_length s n nh, ?_,
    boundaries_getD_zero w e nw, hxlast, boundaries_getD_zero s n nh, hylast,
    hxstep, hystep, ?_, ?_, ?_⟩
  · simp only [gridTiles]
    exact gridL_length nh.length nw.length _
  · intro j hj i hi
    simp only [gridTiles]
    rw [gridL_getD _ dummyTile hj hi]
  · intro x y hx1 hx2 hy1 hy2
    obtain ⟨i, hi, hxi1, hxi2⟩ :=
      exists_between_steps (fun k => (boundaries w e nw).getD k 0) x nw.length hlw
        (by simpa only [boundaries_getD_zero] using hx1) (by simpa only [hxlast] using hx2)
    obtain ⟨j, hj, hyj1, hyj2⟩ :=
      exists_between_steps (fun k => (boundaries s n nh).getD k 0) y nh.length hlh
        (by simpa only [boundaries_getD_zero] using hy1) (by simpa only [hylast] using hy2)
    refine ⟨Tile.mk ((boundaries w e nw).getD i 0, (boundaries s n nh).getD j 0,
        (boundaries w e nw).getD (i + 1) 0, (boundaries s n nh).getD (j + 1) 0)
        (toString i ++ "_" ++ toString j) (nw.getD i 0) (nh.getD j 0), ?_, ?_⟩
    · simp only [gridTiles]
      exact gridL_mem.mpr ⟨j, hj, i, hi, rfl⟩
    · exact ⟨hxi1, hxi2, hyj1, hyj2⟩
  · simp only [gridTiles]
    apply gridL_pairwise
    intro j i j2 i2 hj hi hj2 hi2 hlt x y hcontra
    obtain ⟨hp1, hp2⟩ := hcontra
    simp only [strictInBox, Tile.west, Tile.east, Tile.south, Tile.north] at hp1 hp2
    rcases hlt with hjj | ⟨rfl, hii⟩
    · have hmono : (boundaries s n nh).getD (j + 1) 0 ≤ (boundaries s n nh).getD j2 0 :=
        steps_mono (fun k => (boundaries s n nh).getD k 0) nh.length hystep
          (j + 1) j2 hjj (le_of_lt hj2)
      have h1 : y < (boundaries s n nh).getD (j + 1) 0 := hp1.2.2.2
      have h2 : (boundaries s n nh).getD j2 0 < y := hp2.2.2.1
      linarith
    · have hmono : (boundaries w e nw).getD (i + 1) 0 ≤ (boundaries w e nw).getD i2 0 :=
        steps_mono (fun k => (boundaries w e nw).getD k 0) nw.length hxstep
          (i + 1) i2 hii (le_of_lt hi2)
      have h1 : x < (boundaries w e nw).getD (i + 1) 0 := hp1.2.1
      have h2 : (boundaries w e nw).getD i2 0 < x := hp2.1
      linarith

/-- Claim C10: the tiles are expressed in the coordinates of the input box:
the reprojection and geodesic distances enter only through the computed pixel
width/height (two collaborator pairs that agree on those produce identical
decompositions), and the box of every tile lies inside the original
`(west, south, east, north)` box, whose values it interpolates. -/
theorem bbox_decompose_uses_source_coordinates
    (f1 f2 fr : ℚ × ℚ × ℚ × ℚ → ℚ × ℚ × ℚ × ℚ)
    (d1 d2 dr : ℚ × ℚ → ℚ × ℚ → ℚ)
    (w s e n res : ℚ) (mx : ℤ) :
    (widthPx f1 d1 (w, s, e, n) res = widthPx f2 d2 (w, s, e, n) res →
     heightPx f1 d1 (w, s, e, n) res = heightPx f2 d2 (w, s, e, n) res →
     bbox_decompose f1 d1 (w, s, e, n) res mx = bbox_decompose f2 d2 (w, s, e, n) res mx) ∧
    (∀ tiles : List Tile, bbox_decompose fr dr (w, s, e, n) res mx = .ok tiles →
      w ≤ e → s ≤ n → ∀ t ∈ tiles,
        w ≤ t.west ∧ t.east ≤ e ∧ s ≤ t.south ∧ t.north ≤ n) := by
  constructor
  · intro h1 h2
    rw [bbox_decompose, bbox_decompose, h1, h2]
  · intro tiles hok hwe hsn t ht
    obtain ⟨nw, nh, hmx0, hpos, hnweq, hnheq, hswpos, hshpos, hbw, hbh, htiles⟩ :=
      decompose_ok_structure hok
    subst htiles
    simp only [gridTiles] at ht
    obtain ⟨j, hj, i, hi, rfl⟩ := gridL_mem.mp ht
    have hxstep : ∀ k, k < nw.length →
        (boundaries w e nw).getD k 0 ≤ (boundaries w e nw).getD (k + 1) 0 :=
      fun k hk => boundaries_step w e nw k hk hswpos (fun m hm => (hbw m hm).1)
    have hystep : ∀ k, k < nh.length →
        (boundaries s n nh).getD k 0 ≤ (boundaries s n nh).getD (k + 1) 0 :=
      fun k hk => boundaries_step s n nh k hk hshpos (fun m hm => (hbh m hm).1)
    have hxlast : (boundaries w e nw).getD nw.length 0 = e := by
      rw [boundaries_getD_last w e nw (ne_of_gt hswpos),
        abs_of_nonneg (sub_nonneg.mpr hwe)]
      ring
    have hylast : (boundaries s n nh).getD nh.length 0 = n := by
      rw [boundaries_getD_last s n nh (ne_of_gt hshpos),
        abs_of_nonneg (sub_nonneg.mpr hsn)]
      ring
    refine ⟨?_, ?_, ?_, ?_⟩
    · show w ≤ (boundaries w e nw).getD i 0
      have hm := steps_mono (fun k => (boundaries w e nw).getD k 0) nw.length hxstep
        0 i (Nat.zero_le i) (le_of_lt hi)
      simpa only [boundaries_getD_zero] using hm
    · show (boundaries w e nw).getD (i + 1) 0 ≤ e
      have hm := steps_mono (fun k => (boundaries w e nw).getD k 0) nw.length hxstep
        (i + 1) nw.length hi le_rfl
      simpa only [hxlast] using hm
    · show s ≤ (boundaries s n nh).getD j 0
      have hm := steps_mono (fun k => (boundaries s n nh).getD k 0) nh.length hystep
        0 j (Nat.zero_le j) (le_of_lt hj)
      simpa only [boundaries_getD_zero] using hm
    · show (boundaries s n nh).getD (j + 1) 0 ≤ n
      have hm := steps_mono (fun k => (boundaries s n nh).getD k 0) nh.length hystep
        (j + 1) nh.length hj le_rfl
      simpa only [hylast] using hm

/-! ### Concrete evaluations of the tiler (used as counterexamples and witnesses) -/

lemma sqrt_toNat_nine : Nat.sqrt (Int.toNat 9) = 3 := by
  rw [(by decide : Int.toNat 9 = 9), sqrt_nine]

lemma eval_width_4x1 : widthPx id distL1 (0, 0, 4, 1) 1 = 4 := by
  norm_num [widthPx, xDist, distL1]

lemma eval_height_4x1 : heightPx id distL1 (0, 0, 4, 1) 1 = 1 := by
  norm_num [heightPx, yDist, distL1]

lemma eval_width_3x1 : widthPx id distL1 (0, 0, 3, 1) 1 = 3 := by
  norm_num [widthPx, xDist, distL1]

lemma eval_box_4x1 : bbox_decompose id distL1 (0, 0, 4, 1) 1 9 =
    .ok [Tile.mk (0, 0, 3, 1) "0_0" 3 1, Tile.mk (3, 0, 4, 1) "1_0" 1 1] := by
  simp only [bbox_decompose, widthPx, heightPx, xDist, yDist, distL1, id]
  norm_num only []
  simp only [decomposeGrid, sqrt_toNat_nine, splitDirectional, chunkSizes, boundaries, accumulate]
  norm_num [gridTiles, gridL, accumulate,
    (by decide : Int.tdiv 4 3 = 1), (by decide : Int.emod 4 3 = 1),
    (by decide : Int.tdiv 1 3 = 0), (by decide : Int.emod 1 3 = 1)]
  decide

lemma eval_box_3x1 : bbox_decompose id distL1 (0, 0, 3, 1) 1 9 =
    .ok [Tile.mk (0, 0, 3, 1) "0_0" 3 1, Tile.mk (3, 0, 3, 1) "1_0" 0 1] := by
  simp only [bbox_decompose, widthPx, heightPx, xDist, yDist, distL1, id]
  norm_num only []
  simp only [decomposeGrid, sqrt_toNat_nine, splitDirectional, chunkSizes, boundaries, accumulate]
  norm_num [gridTiles, gridL, accumulate,
    (by decide : Int.tdiv 3 3 = 1), (by decide : Int.emod 3 3 = 0),
    (by decide : Int.tdiv 1 3 = 0), (by decide : Int.emod 1 3 = 1)]
  decide

lemma eval_box_5x5_negres : bbox_decompose id distL1 (0, 0, 5, 5) (-1) 9 =
    .ok [Tile.mk (0, 0, 5, 5) "0_0" 1 1] := by
  have hceil : (⌈(-5 : ℚ)⌉ : ℤ) = -5 := by
    rw [show ((-5 : ℚ)) = (((-5 : ℤ) : ℚ)) by norm_num]
    exact Int.ceil_intCast (-5)
  have hw : widthPx id distL1 (0, 0, 5, 5) (-1) = -5 := by
    norm_num [widthPx, xDist, distL1, hceil]
  have hh : heightPx id distL1 (0, 0, 5, 5) (-1) = -5 := by
    norm_num [heightPx, yDist, distL1, hceil]
  simp only [bbox_decompose, hw, hh]
  norm_num only []
  simp only [decomposeGrid, sqrt_toNat_nine, splitDirectional, chunkSizes, boundaries, accumulate]
  norm_num [gridTiles, gridL, accumulate,
    (by decide : Int.tdiv (-5) 3 = -1), (by decide : Int.emod (-5) 3 = 1),
    (by decide : Int.toNat (-1) = 0)]
  decide

/-- Claim C1: the claim is refuted by the code: for the box `(0, 0, 4, 1)` at
resolution 1 (planar distances) the pixel area is `4 * 1 <= max_px = 9`, yet
`bbox_decompose` returns two tiles, not the single `"0_0"` tile: the
single-tile list built at `utils.py` line 474 is dead, being overwritten by
`bboxs = []` at line 489. -/
theorem bbox_decompose_single_tile_path_is_dead :
    widthPx id distL1 (0, 0, 4, 1) 1 * heightPx id distL1 (0, 0, 4, 1) 1 ≤ 9 ∧
    bbox_decompose id distL1 (0, 0, 4, 1) 1 9 =
      .ok [Tile.mk (0, 0, 3, 1) "0_0" 3 1, Tile.mk (3, 0, 4, 1) "1_0" 1 1] := by
  constructor
  · rw [eval_width_4x1, eval_height_4x1]
    norm_num
  · exact eval_box_4x1

/-- Claim C5, counterexample: with `max_px = 9` (`n = 3`) and a box whose
pixel width is exactly `3`, the remainder chunk `3 % 3 = 0` is kept and the
decomposition contains the degenerate tile `"1_0"` of pixel width `0`
(its box has west = east = 3), contradicting "zero-length chunks are dropped". -/
theorem bbox_decompose_zero_width_tile_example :
    bbox_decompose id distL1 (0, 0, 3, 1) 1 9 =
      .ok [Tile.mk (0, 0, 3, 1) "0_0" 3 1, Tile.mk (3, 0, 3, 1) "1_0" 0 1] ∧
    (Tile.mk ((3 : ℚ), (0 : ℚ), (3 : ℚ), (1 : ℚ)) "1_0" 0 1).w = 0 :=
  ⟨eval_box_3x1, rfl⟩

/-- Claim C5 (amended), witness at a concrete input: `3` divides the pixel
width `3`, and the decomposition indeed contains a tile of pixel width `0`. -/
theorem bbox_decompose_keeps_zero_width_remainder_witness :
    (Nat.sqrt (Int.toNat 9) : ℤ) ∣ widthPx id distL1 (0, 0, 3, 1) 1 ∧
    ∃ t ∈ [Tile.mk ((0 : ℚ), (0 : ℚ), (3 : ℚ), (1 : ℚ)) "0_0" 3 1,
           Tile.mk ((3 : ℚ), (0 : ℚ), (3 : ℚ), (1 : ℚ)) "1_0" 0 1], t.w = 0 := by
  have hdvd : (Nat.sqrt (Int.toNat 9) : ℤ) ∣ widthPx id distL1 (0, 0, 3, 1) 1 := by
    rw [eval_width_3x1, sqrt_toNat_nine]
    decide
  exact ⟨hdvd, bbox_decompose_keeps_zero_width_remainder eval_box_3x1 hdvd⟩

/-- Claim C4, counterexample: a negative resolution is not rejected at all:
with `resolution = -1` the call returns a tile list (of nonsensical pixel
sizes), so "resolution <= 0 fails with InputValueError" is false. -/
theorem bbox_decompose_negative_resolution_returns_tiles :
    (-1 : ℚ) ≤ 0 ∧
    bbox_decompose id distL1 (0, 0, 5, 5) (-1) 9 =
      .ok [Tile.mk (0, 0, 5, 5) "0_0" 1 1] :=
  ⟨by norm_num, eval_box_5x5_negres⟩

/-- Claim C4 (amended), witness: at `resolution = 0` the call fails with a
`ZeroDivisionError`-class condition. -/
theorem bbox_decompose_nonpositive_args_error_witness :
    ((0 : ℚ) = 0 ∨ (9 : ℤ) ≤ 0) ∧
    ∃ err, bbox_decompose id distL1 (0, 0, 1, 1) 0 9 = .error err ∧
      (err = PyError.zeroDivisionError ∨ err = PyError.valueError "math domain error") :=
  ⟨Or.inl rfl,
    bbox_decompose_nonpositive_args_error id distL1 (0, 0, 1, 1) 0 9 (Or.inl rfl)⟩

/-- Claim C3, witness at a concrete decomposition: both tiles of the
`(0, 0, 4, 1)` decomposition respect the budget `9`. -/
theorem bbox_decompose_tiles_within_budget_witness :
    (0 : ℤ) < 9 ∧
    ∀ t ∈ [Tile.mk ((0 : ℚ), (0 : ℚ), (3 : ℚ), (1 : ℚ)) "0_0" 3 1,
           Tile.mk ((3 : ℚ), (0 : ℚ), (4 : ℚ), (1 : ℚ)) "1_0" 1 1], t.w * t.h ≤ 9 :=
  ⟨by norm_num, bbox_decompose_tiles_within_budget eval_box_4x1 (by norm_num)⟩

/-- The two tiles of the `(0, 0, 4, 1)` decomposition at resolution 1 with
`max_px = 9`. -/
def tiles4x1 : List Tile :=
  [Tile.mk (0, 0, 3, 1) "0_0" 3 1, Tile.mk (3, 0, 4, 1) "1_0" 1 1]

/-- Claim C2, witness at a concrete decomposition. -/
theorem bbox_decompose_partitions_exactly_witness :
    (0 : ℚ) ≤ 4 ∧ (0 : ℚ) ≤ 1 ∧
    (∃ xs ys : List ℚ, ∃ ncols nrows : ℕ,
      0 < ncols ∧ 0 < nrows ∧
      xs.length = ncols + 1 ∧ ys.length = nrows + 1 ∧
      tiles4x1.length = nrows * ncols ∧
      xs.getD 0 0 = 0 ∧ xs.getD ncols 0 = 4 ∧
      ys.getD 0 0 = 0 ∧ ys.getD nrows 0 = 1 ∧
      (∀ i, i < ncols → xs.getD i 0 ≤ xs.getD (i + 1) 0) ∧
      (∀ j, j < nrows → ys.getD j 0 ≤ ys.getD (j + 1) 0) ∧
      (∀ j, j < nrows → ∀ i, i < ncols →
        (tiles4x1.getD (j * ncols + i) dummyTile).box =
          (xs.getD i 0, ys.getD j 0, xs.getD (i + 1) 0, ys.getD (j + 1) 0)) ∧
      (∀ x y : ℚ, 0 ≤ x → x ≤ 4 → 0 ≤ y → y ≤ 1 → ∃ t ∈ tiles4x1, inBox x y t) ∧
      tiles4x1.Pairwise (fun t1 t2 => ∀ x y : ℚ,
        ¬(strictInBox x y t1 ∧ strictInBox x y t2))) :=
  ⟨by norm_num, by norm_num,
    bbox_decompose_partitions_exactly id distL1 0 0 4 1 1 9 tiles4x1
      eval_box_4x1 (by norm_num) (by norm_num)⟩

/-- Claim C10, witness: a reprojection replaced by a constant function with
the same resulting pixel sizes yields the identical decomposition, and the
concrete tiles stay inside the input box. -/
theorem bbox_decompose_uses_source_coordinates_witness :
    bbox_decompose id distL1 (0, 0, 4, 1) 1 9 =
      bbox_decompose (fun _ => ((0 : ℚ), (0 : ℚ), (4 : ℚ), (1 : ℚ))) distL1 (0, 0, 4, 1) 1 9 ∧
    ∀ t ∈ tiles4x1, (0 : ℚ) ≤ t.west ∧ t.east ≤ 4 ∧ (0 : ℚ) ≤ t.south ∧ t.north ≤ 1 :=
  ⟨(bbox_decompose_uses_source_coordinates id
      (fun _ => ((0 : ℚ), (0 : ℚ), (4 : ℚ), (1 : ℚ))) id distL1 distL1 distL1
      0 0 4 1 1 9).1 rfl rfl,
   (bbox_decompose_uses_source_coordinates id id id distL1 distL1 distL1
      0 0 4 1 1 9).2 tiles4x1 eval_box_4x1 (by norm_num) (by norm_num)⟩

/-! ### The CRS matcher `match_crs` (`utils.py` lines 346-408)

A spatial reference (`in_crs`/`out_crs`) is an opaque value; `pyproj.CRS`
resolution to a canonical definition is modelled by a caller-supplied
`resolve` function, and two references compare equal at line 379 exactly when
their resolutions agree.  The coordinate transform built by
`pyproj.Transformer` is modelled by a caller-supplied point function. -/

/-- A shapely geometry as far as this package reads it: the six classes
accepted by `match_crs` (`utils.py` lines 384-394), with a polygon carrying
its exterior ring and its interior rings (holes). -/
inductive SGeom where
  | point (x y : ℚ)
  | multiPoint (pts : List (ℚ × ℚ))
  | lineString (pts : List (ℚ × ℚ))
  | multiLineString (parts : List (List (ℚ × ℚ)))
  | polygon (exterior : List (ℚ × ℚ)) (interiors : List (List (ℚ × ℚ)))
  | multiPolygon (polys : List (List (ℚ × ℚ) × List (List (ℚ × ℚ))))
deriving DecidableEq, Repr

/-- `shapely.ops.transform`: apply a point function to every vertex,
preserving the structure. -/
def SGeom.transform (f : ℚ × ℚ → ℚ × ℚ) : SGeom → SGeom
  | .point x y => .point (f (x, y)).1 (f (x, y)).2
  | .multiPoint pts => .multiPoint (pts.map f)
  | .lineString pts => .lineString (pts.map f)
  | .multiLineString parts => .multiLineString (parts.map (fun part => part.map f))
  | .polygon ext holes => .polygon (ext.map f) (holes.map (fun ring => ring.map f))
  | .multiPolygon polys => .multiPolygon (polys.map (fun poly =>
      (poly.1.map f, poly.2.map (fun ring => ring.map f))))

/-- A Python value passed as the `geom` argument of `match_crs` or as the
`geometry` field of `ESRIGeomQuery`: a shapely geometry, a tuple of floats,
a list whose elements are tuples of floats, or anything else. -/
inductive GeomInput where
  | shapely (g : SGeom)
  | pytuple (xs : List ℚ)
  | pylist (cs : List (List ℚ))
  | other
deriving DecidableEq, Repr

/-- The exterior ring of `shapely.geometry.box(w, s, e, n)`: a closed
counterclockwise rectangle. -/
def boxRing (w s e n : ℚ) : List (ℚ × ℚ) := [(e, s), (e, n), (w, n), (w, s), (e, s)]

/-- `.bounds` of a shapely geometry given its vertices: the axis-aligned
`(minx, miny, maxx, maxy)`. -/
def boundsOf (pts : List (ℚ × ℚ)) : ℚ × ℚ × ℚ × ℚ :=
  match pts with
  | [] => (0, 0, 0, 0)
  | p :: rest =>
    (rest.foldl (fun a q => min a q.1) p.1, rest.foldl (fun a q => min a q.2) p.2,
     rest.foldl (fun a q => max a q.1) p.1, rest.foldl (fun a q => max a q.2) p.2)

/-- The expected-types text of the `InputTypeError` raised at `utils.py`
lines 404-408 (shortened: punctuation only). -/
def matchCrsExpected : String :=
  "a list of coordinates such as [(x1, y1), ...]," ++
  "a bounding box like so (xmin, ymin, xmax, ymax), or any valid shapely geometry."

/-- `match_crs` (`utils.py` lines 346-408).  Line 379 compares the two
resolved references and returns the input unchanged when they are equal,
before any shape inspection.  Otherwise: a shapely geometry is transformed
vertex-wise (line 395); a 4-tuple is turned into a box, transformed, and its
bounds returned (line 398); a list whose elements all have length 2 is
transformed pointwise (lines 400-402, where `zip(*geom)` raises `ValueError`
on an empty list); anything else raises `InputTypeError` (line 408). -/
def match_crs {C : Type} (resolve : C → ℕ) (transform : ℚ × ℚ → ℚ × ℚ)
    (geom : GeomInput) (inCrs outCrs : C) : Except PyError GeomInput :=
  if resolve inCrs = resolve outCrs then .ok geom
  else
    match geom with
    | .shapely g => .ok (.shapely (g.transform transform))
    | .pytuple [w, s, e, n] =>
      match boundsOf ((boxRing w s e n).map transform) with
      | (a, b, c, d) => .ok (.pytuple [a, b, c, d])
    | .pylist cs =>
      if cs.all (fun c => c.length == 2) then
        if cs.isEmpty then .error (.valueError "not enough values to unpack")
        else .ok (.pylist (cs.map (fun c =>
          match c with
          | [x, y] => [(transform (x, y)).1, (transform (x, y)).2]
          | c0 => c0)))
      else .error (.inputTypeError "geom" matchCrsExpected)
    | _ => .error (.inputTypeError "geom" matchCrsExpected)

/-- The input shapes accepted by `match_crs` per the spec: a shapely
geometry, a 4-tuple bounding box, or a list of length-2 coordinate tuples. -/
def acceptedShape : GeomInput → Bool
  | .shapely _ => true
  | .pytuple xs => xs.length == 4
  | .pylist cs => cs.all (fun c => c.length == 2)
  | .other => false

/-- Claim C6: whenever the two references resolve to equal canonical
definitions, `match_crs` returns the input itself, unchanged, for every input
value (line 379 fires before any shape inspection). -/
theorem match_crs_equal_crs_identity {C : Type} (resolve : C → ℕ)
    (transform : ℚ × ℚ → ℚ × ℚ) (geom : GeomInput) (inCrs outCrs : C)
    (h : resolve inCrs = resolve outCrs) :
    match_crs resolve transform geom inCrs outCrs = .ok geom := by
  simp [match_crs, h]

/-- Claim C6, witness: two distinct references resolving to the same
canonical definition leave a coordinate list unchanged. -/
theorem match_crs_equal_crs_identity_witness :
    (fun _ : ℕ => 0) 3857 = (fun _ : ℕ => 0) 4326 ∧
    match_crs (fun _ : ℕ => 0) (fun p => (p.2, p.1))
      (.pylist [[(0 : ℚ), (1 : ℚ)]]) 3857 4326 = .ok (.pylist [[(0 : ℚ), (1 : ℚ)]]) :=
  ⟨rfl, match_crs_equal_crs_identity (fun _ : ℕ => 0) (fun p => (p.2, p.1))
    (.pylist [[(0 : ℚ), (1 : ℚ)]]) 3857 4326 rfl⟩

/-- Claim C7, counterexample: an input of unrecognized shape is NOT rejected
when the two references resolve equally: `match_crs` returns it unchanged at
line 379-380 before any shape validation, so "rejected regardless of whether
the two references are equal" is false. -/
theorem match_crs_unrecognized_accepted_when_equal :
    match_crs (fun _ : ℕ => 0) (fun p => p) GeomInput.other 4326 4326 =
      .ok GeomInput.other ∧
    acceptedShape GeomInput.other = false := by
  constructor
  · simp [match_crs]
  · rfl

/-- Claim C7 (amended): when the references resolve to different canonical
definitions, `match_crs` fails with the `InputTypeError`-class condition iff
the input matches none of the three accepted shapes; when they resolve
equally, every input (recognized or not) is returned unchanged without shape
validation. -/
theorem match_crs_type_error_iff_unrecognized {C : Type} (resolve : C → ℕ)
    (transform : ℚ × ℚ → ℚ × ℚ) (geom : GeomInput) (inCrs outCrs : C) :
    (resolve inCrs ≠ resolve outCrs →
      (match_crs resolve transform geom inCrs outCrs =
          .error (.inputTypeError "geom" matchCrsExpected) ↔
        acceptedShape geom = false)) ∧
    (resolve inCrs = resolve outCrs →
      match_crs resolve transform geom inCrs outCrs = .ok geom) := by
  constructor
  · intro hne
    cases geom with
    | shapely g => simp [match_crs, hne, acceptedShape]
    | pytuple xs =>
      rcases xs with _ | ⟨a, _ | ⟨b, _ | ⟨c, _ | ⟨d, _ | ⟨e0, rest⟩⟩⟩⟩⟩ <;>
        simp [match_crs, hne, acceptedShape, boundsOf, boxRing]
    | pylist cs =>
      by_cases hall : cs.all (fun c => c.length == 2)
      · by_cases hemp : cs.isEmpty
        · simp [match_crs, hne, acceptedShape, hall, hemp]
        · simp [match_crs, hne, acceptedShape, hall, hemp]
      · simp [match_crs, hne, acceptedShape, hall]
    | other => simp [match_crs, hne, acceptedShape]
  · intro h
    simp [match_crs, h]

/-- Claim C7 (amended), witness at distinct references and an unrecognized
input. -/
theorem match_crs_type_error_iff_unrecognized_witness :
    (fun n : ℕ => n) 3857 ≠ (fun n : ℕ => n) 4326 ∧
    (match_crs (fun n : ℕ => n) (fun p => p) GeomInput.other 3857 4326 =
        .error (.inputTypeError "geom" matchCrsExpected) ↔
      acceptedShape GeomInput.other = false) :=
  ⟨by decide,
    (match_crs_type_error_iff_unrecognized (fun n : ℕ => n) (fun p => p)
      GeomInput.other 3857 4326).1 (by decide)⟩

/-! ### The ESRI geometry query builder (`utils.py` lines 253-344) -/

/-- A JSON value, for the ESRI geometry payload (`ujson.dumps` serialization
is modelled by the `Json` value itself). -/
inductive Json where
  | num (q : ℚ)
  | str (s : String)
  | arr (elems : List Json)
  | obj (fields : List (String × Json))

/-- The request payload produced by `ESRIGeomQuery._get_payload`
(`utils.py` lines 294-298). -/
structure EsriPayload where
  geometryType : String
  geometry : Json
  inSR : String

/-- The `ESRIGeomQuery` dataclass (`utils.py` lines 253-276). -/
structure ESRIGeomQuery where
  geometry : GeomInput
  wkid : ℤ

/-- `_get_payload` (`utils.py` lines 278-298): the geometry json merged with
the `"spatialRelference"` entry (sic, typo in the source), typed and tagged
with the WKID. -/
def ESRIGeomQuery.getPayload (q : ESRIGeomQuery) (geoType : String)
    (geoJson : List (String × Json)) : EsriPayload :=
  { geometryType := geoType,
    geometry := .obj (geoJson ++
      [("spatialRelference", .obj [("wkid", .str (toString q.wkid))])]),
    inSR := toString q.wkid }

/-- One ring as ESRI JSON: the list of `[x, y]` pairs. -/
def ringJson (ring : List (ℚ × ℚ)) : Json :=
  .arr (ring.map (fun p => .arr [.num p.1, .num p.2]))

/-- `ESRIGeomQuery.polygon` (`utils.py` lines 327-334): requires a shapely
Polygon (line 329) and encodes `{"rings": [exterior-ring]}` from
`self.geometry.exterior.coords` (line 333); the interior rings are never
read. -/
def ESRIGeomQuery.polygon (q : ESRIGeomQuery) : Except PyError EsriPayload :=
  match q.geometry with
  | .shapely (.polygon ext _) =>
    .ok (q.getPayload "esriGeometryPolygon" [("rings", .arr [ringJson ext])])
  | _ => .error (.inputTypeError "geometry" "Polygon")

/-- Look a key up in a JSON object field list. -/
def jsonField (fields : List (String × Json)) (k : String) : Option Json :=
  (fields.find? (fun kv => kv.1 == k)).map (fun kv => kv.2)

/-- Decode a JSON `[x, y]` pair. -/
def decodePoint : Json → Option (ℚ × ℚ)
  | .arr [.num x, .num y] => some (x, y)
  | _ => none

/-- Decode a JSON ring (array of `[x, y]` pairs). -/
def decodeRing : Json → Option (List (ℚ × ℚ))
  | .arr pts => pts.mapM decodePoint
  | _ => none

/-- The rings carried by the geometry JSON of a payload, decoded back into
coordinate lists. -/
def payloadRings (p : EsriPayload) : Option (List (List (ℚ × ℚ))) :=
  match p.geometry with
  | .obj fields =>
    match jsonField fields "rings" with
    | some (.arr rs) => rs.mapM decodeRing
    | _ => none
  | _ => none

lemma decodeRing_ringJson (ring : List (ℚ × ℚ)) :
    decodeRing (ringJson ring) = some ring := by
  induction ring with
  | nil => rfl
  | cons p ps ih =>
    simp only [ringJson, decodeRing, List.map_cons, List.mapM_cons] at ih ⊢
    simp only [decodePoint]
    rw [show (List.mapM decodePoint (ps.map (fun p => Json.arr [.num p.1, .num p.2])) :
        Option (List (ℚ × ℚ))) = some ps from ih]
    rfl

/-- Claim C8: `ESRIGeomQuery.polygon` is insensitive to the interior rings, its
payload decodes to exactly one ring equal to the exterior ring of the polygon, and
every non-Polygon geometry is rejected with the `InputTypeError`-class
condition naming `Polygon`. -/
theorem esri_polygon_exterior_ring_only (geom : GeomInput) (wkid : ℤ) :
    (∀ ext holes holes2,
      ESRIGeomQuery.polygon ⟨.shapely (.polygon ext holes), wkid⟩ =
        ESRIGeomQuery.polygon ⟨.shapely (.polygon ext holes2), wkid⟩) ∧
    (∀ ext holes p,
      ESRIGeomQuery.polygon ⟨.shapely (.polygon ext holes), wkid⟩ = .ok p →
      payloadRings p = some [ext]) ∧
    ((∀ ext holes, geom ≠ .shapely (.polygon ext holes)) →
      ESRIGeomQuery.polygon ⟨geom, wkid⟩ =
        .error (.inputTypeError "geometry" "Polygon")) := by
  refine ⟨fun ext holes holes2 => rfl, ?_, ?_⟩
  · intro ext holes p hp
    simp only [ESRIGeomQuery.polygon, Except.ok.injEq] at hp
    subst hp
    simp only [payloadRings, ESRIGeomQuery.getPayload, jsonField, List.cons_append,
      List.nil_append]
    have hp0 : ((fun (kv : String × Json) => kv.1 == "rings")
        ("rings", Json.arr [ringJson ext])) = true := by
      simp
    rw [@List.find?_cons_of_pos (String × Json) (fun kv => kv.1 == "rings")
      ("rings", Json.arr [ringJson ext])
      [("spatialRelference", Json.obj [("wkid", Json.str (toString wkid))])] hp0]
    show List.mapM decodeRing [ringJson ext] = some [ext]
    rw [List.mapM_cons, List.mapM_nil, decodeRing_ringJson]
    rfl
  · intro hne
    cases geom with
    | shapely g =>
      cases g with
      | polygon ext holes => exact absurd rfl (hne ext holes)
      | point x y => rfl
      | multiPoint pts => rfl
      | lineString pts => rfl
      | multiLineString parts => rfl
      | multiPolygon polys => rfl
    | pytuple xs => rfl
    | pylist cs => rfl
    | other => rfl

/-- Claim C8, witness: holes do not change the payload, the payload decodes
to exactly the exterior ring, and a non-Polygon input is rejected. -/
theorem esri_polygon_exterior_ring_only_witness :
    ESRIGeomQuery.polygon ⟨.shapely (.polygon
        [((0 : ℚ), (0 : ℚ)), (1, 0), (1, 1), (0, 0)] [[((2 : ℚ), (2 : ℚ))]]), 4326⟩ =
      ESRIGeomQuery.polygon ⟨.shapely (.polygon
        [((0 : ℚ), (0 : ℚ)), (1, 0), (1, 1), (0, 0)] []), 4326⟩ ∧
    payloadRings (ESRIGeomQuery.getPayload ⟨.shapely (.polygon [((0 : ℚ), (0 : ℚ))] []), 4326⟩
        "esriGeometryPolygon" [("rings", .arr [ringJson [((0 : ℚ), (0 : ℚ))]])]) =
      some [[((0 : ℚ), (0 : ℚ))]] ∧
    ESRIGeomQuery.polygon ⟨GeomInput.other, 4326⟩ =
      .error (.inputTypeError "geometry" "Polygon") :=
  ⟨(esri_polygon_exterior_ring_only GeomInput.other 4326).1
      [((0 : ℚ), (0 : ℚ)), (1, 0), (1, 1), (0, 0)] [[((2 : ℚ), (2 : ℚ))]] [],
   (esri_polygon_exterior_ring_only GeomInput.other 4326).2.1
      [((0 : ℚ), (0 : ℚ))] [] _ rfl,
   (esri_polygon_exterior_ring_only GeomInput.other 4326).2.2
      (fun _ _ h => GeomInput.noConfusion h)⟩

/-! ### `ArcGISRESTful.oids_bygeom` (`pygeoogc.py` lines 88-180)

The network round trip is replaced by the service response; only the
response-handling logic of lines 139-151 and 175-180 is embedded. -/

/-- The service response to a "return identifiers only" query, as far as
`oids_bygeom` inspects it: the `objectIds` key may be absent (`none`), JSON
`null` (`some none`) or an identifier list (`some (some l)`); `error` is the
message of the error object of the response when one with a message is present. -/
structure OidResponse where
  objectIds : Option (Option (List ℤ))
  error : Option String
deriving DecidableEq, Repr

/-- `valid_spatialrels` of `pygeoogc.py` lines 139-149. -/
def valid_spatialrels : List String :=
  ["esriSpatialRelIntersects", "esriSpatialRelContains", "esriSpatialRelCrosses",
   "esriSpatialRelEnvelopeIntersects", "esriSpatialRelIndexIntersects",
   "esriSpatialRelOverlaps", "esriSpatialRelTouches", "esriSpatialRelWithin",
   "esriSpatialRelRelation"]

/-- Modelled from the spec: `ArcGISRESTfulBase.partition_oids` lives in
`pygeoogc/core.py`, which is not among the sources.  Per spec sections 4.4 and
8 it chunks the identifier list into batches of at most `max_nrecords`
(`tlz.partition_all`), and per the spec scenario for `oids_bygeom` partitioning
a `null` (None) identifier set raises a TypeError-class condition, which the
enclosing `except (KeyError, TypeError)` turns into `ZeroMatched`. -/
def partition_oids (maxNrecords : ℕ) (oids : Option (List ℤ)) :
    Except PyError (List (List ℤ)) :=
  match oids with
  | none => .error (.typeError "NoneType is not iterable")
  | some l => .ok (l.toChunks maxNrecords)

/-- `oids_bygeom`, `pygeoogc.py` lines 139-151 (spatial-relation validation)
and 175-180 (response handling): look up `resp["objectIds"]` (a missing key
raises `KeyError`), partition it, and turn a `KeyError`/`TypeError` into
`ZeroMatched` carrying `resp["error"]["message"]` when an error object is
present and `"No matched records"` otherwise. -/
def oids_bygeom (maxNrecords : ℕ) (spatialRelation : String) (resp : OidResponse) :
    Except PyError (List (List ℤ)) :=
  if spatialRelation ∉ valid_spatialrels then .error (.inputValueError "spatial_relation")
  else
    match
      (match resp.objectIds with
       | none => .error (.keyError "objectIds")
       | some v => partition_oids maxNrecords v : Except PyError (List (List ℤ)))
    with
    | .ok batches => .ok batches
    | .error (.keyError _k0) =>
      .error (.zeroMatched (resp.error.getD "No matched records"))
    | .error (.typeError _m0) =>
      .error (.zeroMatched (resp.error.getD "No matched records"))
    | .error err => .error err

/-- Claim C9: for a valid spatial relation, a response with `objectIds: null`
raises `ZeroMatched` carrying the error message of the service itself when an error
object is present, and `"No matched records"` when none is. -/
theorem oids_bygeom_null_raises_zero_matched (maxN : ℕ) (rel : String)
    (resp : OidResponse) (hrel : rel ∈ valid_spatialrels)
    (hnull : resp.objectIds = some none) :
    (∀ msg, resp.error = some msg →
      oids_bygeom maxN rel resp = .error (.zeroMatched msg)) ∧
    (resp.error = none →
      oids_bygeom maxN rel resp = .error (.zeroMatched "No matched records")) := by
  constructor
  · intro msg hmsg
    simp [oids_bygeom, hrel, hnull, partition_oids, hmsg]
  · intro hnone
    simp [oids_bygeom, hrel, hnull, partition_oids, hnone]

/-- Claim C9, witness: the scenario from the spec, a mock response
`{"objectIds": null, "error": {"message": "bad request"}}`. -/
theorem oids_bygeom_null_raises_zero_matched_witness :
    "esriSpatialRelIntersects" ∈ valid_spatialrels ∧
    oids_bygeom 1000 "esriSpatialRelIntersects"
      { objectIds := some none, error := some "bad request" } =
      .error (.zeroMatched "bad request") :=
  ⟨by decide,
    (oids_bygeom_null_raises_zero_matched 1000 "esriSpatialRelIntersects"
      { objectIds := some none, error := some "bad request" } (by decide) rfl).1
      "bad request" rfl⟩
